/-
  Verification of the schema-provisioning engine (migrations.py) and the
  date-arithmetic helper (main.py) of the repository.

  The Python source is shallowly embedded: each Python function becomes a
  Lean function over explicit inputs; the DynamoDB backend's responses are
  passed in as explicit data (an oracle per call site), and exceptions are
  modelled with `Except`.
-/
import Mathlib

set_option linter.unusedVariables false

namespace Migrations

/-- Classified error codes carried by a botocore `ClientError`
    (`e.response['Error']['Code']`).  `resourceNotFound` is
    `ResourceNotFoundException`, `resourceInUse` is `ResourceInUseException`
    (DynamoDB's "already exists / being created" signal), `accessDenied`
    stands for an authorization failure, `otherCode` for any other code
    (e.g. `ValidationException`). -/
inductive ErrCode where
  | resourceNotFound
  | resourceInUse
  | accessDenied
  | otherCode
deriving DecidableEq, Repr

/-- A Python exception as seen by the handlers in migrations.py:
    either a botocore `ClientError` with a classified code (caught by
    `except ClientError`), a `WaiterError` caused by `waiter.wait`
    exceeding its bounded attempts (not a `ClientError`; caught only by
    `except Exception`), or any other exception (also caught only by
    `except Exception`, and by nothing narrower). -/
inductive PyErr where
  | clientError (code : ErrCode)
  | waiterTimeout
  | otherExc
deriving DecidableEq, Repr

/-- One call issued to the store client, recorded for trace reasoning. -/
inductive StoreOp where
  | describeOp (table : String)
  | createOp (table : String)
  | waitOp (table : String)
  | listOp
deriving DecidableEq, Repr

/-- The store's responses to the (at most) three calls `create_table` can
    issue for one table in one run: `table.load()` (describe),
    `client.create_table`, and `waiter.wait`.  `Except.ok` means the call
    returned normally; `Except.error e` means it raised `e`. -/
structure Behavior where
  describeResult : Except PyErr Unit
  createResult : Except PyErr Unit
  waiterResult : Except PyErr Unit
deriving Repr

/-- One element of a table's `key_schema` list in tables_config.json. -/
structure KeyDef where
  attribute_name : String
  key_type : String
deriving DecidableEq, Repr

/-- One element of a table's `attributes` list in tables_config.json. -/
structure AttrDef where
  name : String
  type : String
deriving DecidableEq, Repr

/-- One table configuration dictionary from tables_config.json. -/
structure TableConfig where
  name : String
  key_schema : List KeyDef
  attributes : List AttrDef
  billing_mode : String
deriving DecidableEq, Repr

/-- The parsed top-level JSON document.  `tables?` is `none` when the
    document has no "tables" key (Python: `config.get("tables", [])`). -/
structure ConfigDoc where
  tables? : Option (List TableConfig)
deriving DecidableEq, Repr

/-- Failure to obtain the parsed document: the file was missing
    (`FileNotFoundError`) or held invalid JSON (`json.JSONDecodeError`). -/
inductive ConfigErr where
  | fileNotFound
  | badJson
deriving DecidableEq, Repr

/-- `DynamoDBMigrator.load_table_config` (migrations.py:73-95): reads and
    parses the file, returns `config.get("tables", [])`.  Both error cases
    are re-raised.  No validation of any kind is performed on the table
    configurations, and no store call is made. -/
def load_table_config (src : Except ConfigErr ConfigDoc) :
    Except ConfigErr (List TableConfig) :=
  match src with
  | .error e => .error e
  | .ok config => .ok (config.tables?.getD [])

/-- `DynamoDBMigrator.table_exists` (migrations.py:97-116):
    `table.load()` succeeding returns `True`; a `ClientError` with code
    `ResourceNotFoundException` returns `False`; any other `ClientError`
    is logged and also returns `False`.  An exception that is not a
    `ClientError` is not caught and propagates. -/
def table_exists (describeResult : Except PyErr Unit) : Except PyErr Bool :=
  match describeResult with
  | .ok _ => .ok true
  | .error (.clientError c) =>
      if c = ErrCode.resourceNotFound then .ok false
      else .ok false
  | .error e => .error e

/-- Per-entity outcome, one per branch of `create_table` that returns.
    Each branch logs a distinct message, which is the run's record of the
    outcome; `created`/`alreadyExisted`/`raceLost` return `True`,
    `failed` returns `False`. -/
inductive Outcome where
  | created
  | alreadyExisted
  | raceLost
  | failed (e : PyErr)
deriving DecidableEq, Repr

/-- The boolean `create_table` actually returns for each outcome. -/
def Outcome.toBool : Outcome → Bool
  | .created => true
  | .alreadyExisted => true
  | .raceLost => true
  | .failed _ => false

/-- Whether an outcome is a recorded failure. -/
def Outcome.isFailed : Outcome → Bool
  | .failed _ => true
  | _ => false

/-- `DynamoDBMigrator.create_table` (migrations.py:118-188), returning the
    list of store calls issued together with the outcome (or the
    propagated exception).  Control flow of the source:
    * `table_exists` is called outside the `try`; an exception it does not
      catch propagates out of `create_table`;
    * if the table exists, return `True` at once (no create call);
    * otherwise `create_table` is issued inside a
      `try ... except ClientError ... except Exception` block:
      - `ClientError` with `ResourceInUseException` → warn, return `True`
        (no waiter call);
      - any other `ClientError`, or any other exception → return `False`;
      - on success, `waiter.wait` runs inside the same `try`, so its
        errors go through the same two handlers. -/
def create_table (cfg : TableConfig) (beh : Behavior) :
    List StoreOp × Except PyErr Outcome :=
  match table_exists beh.describeResult with
  | .error e => ([StoreOp.describeOp cfg.name], .error e)
  | .ok true => ([StoreOp.describeOp cfg.name], .ok Outcome.alreadyExisted)
  | .ok false =>
    match beh.createResult with
    | .error (.clientError c) =>
        if c = ErrCode.resourceInUse then
          ([StoreOp.describeOp cfg.name, StoreOp.createOp cfg.name],
            .ok Outcome.raceLost)
        else
          ([StoreOp.describeOp cfg.name, StoreOp.createOp cfg.name],
            .ok (Outcome.failed (.clientError c)))
    | .error e =>
        ([StoreOp.describeOp cfg.name, StoreOp.createOp cfg.name],
          .ok (Outcome.failed e))
    | .ok _ =>
      match beh.waiterResult with
      | .ok _ =>
          ([StoreOp.describeOp cfg.name, StoreOp.createOp cfg.name,
            StoreOp.waitOp cfg.name], .ok Outcome.created)
      | .error (.clientError c) =>
          if c = ErrCode.resourceInUse then
            ([StoreOp.describeOp cfg.name, StoreOp.createOp cfg.name,
              StoreOp.waitOp cfg.name], .ok Outcome.raceLost)
          else
            ([StoreOp.describeOp cfg.name, StoreOp.createOp cfg.name,
              StoreOp.waitOp cfg.name], .ok (Outcome.failed (.clientError c)))
      | .error e =>
          ([StoreOp.describeOp cfg.name, StoreOp.createOp cfg.name,
            StoreOp.waitOp cfg.name], .ok (Outcome.failed e))

/-- The `for table_config in table_configs:` loop of
    `DynamoDBMigrator.run_migrations` (migrations.py:222-226): each table
    is processed in order by `create_table`; an exception propagating out
    of `create_table` aborts the loop (it is caught by the surrounding
    `try` of `run_migrations`).  Returns the store-call trace and either
    the list of per-table outcomes or the aborting exception. -/
def runTables : List (TableConfig × Behavior) →
    List StoreOp × Except PyErr (List Outcome)
  | [] => ([], .ok [])
  | (cfg, beh) :: rest =>
    let (ops, r) := create_table cfg beh
    match r with
    | .error e => (ops, .error e)
    | .ok o =>
      let (ops2, r2) := runTables rest
      (ops ++ ops2, r2.map (fun os => o :: os))

/-- `DynamoDBMigrator.run_migrations` (migrations.py:204-233): load the
    configurations (a load error is caught by the surrounding `try` and
    yields `False`); an empty configuration list returns `True`; otherwise
    run the loop, count the tables for which `create_table` returned
    `True`, and return `success_count == len(table_configs)`.  An
    exception escaping the loop is caught and yields `False`.
    Also returns the store-call trace. -/
def run_migrations (src : Except ConfigErr ConfigDoc)
    (env : String → Behavior) : Bool × List StoreOp :=
  match load_table_config src with
  | .error _ => (false, [])
  | .ok tcs =>
    if tcs.isEmpty then (true, [])
    else
      let (ops, r) := runTables (tcs.map (fun c => (c, env c.name)))
      match r with
      | .error _ => (false, ops)
      | .ok outcomes =>
          (decide (outcomes.countP (fun o => o.toBool) = tcs.length), ops)

/-- The exit status of `main` (migrations.py:279-281) on the migration
    path: `sys.exit(0 if success else 1)`.  `env` assigns to each table
    name the store's responses for that table during this run. -/
def main_exit (src : Except ConfigErr ConfigDoc)
    (env : String → Behavior) : Nat :=
  if (run_migrations src env).1 then 0 else 1

/-- `DynamoDBMigrator.list_tables` (migrations.py:190-202): the backend's
    response is either a parsed response dictionary whose "TableNames" key
    may be absent (`response.get("TableNames", [])`), or an exception;
    every exception is caught and the empty list returned. -/
def list_tables (resp : Except PyErr (Option (List String))) : List String :=
  match resp with
  | .ok names? => names?.getD []
  | .error _ => []

/-- Whether a store operation is a `create_table` call. -/
def StoreOp.isCreate : StoreOp → Bool
  | .createOp _ => true
  | _ => false

/-- The responses of a fault-free live store currently holding the tables
    `store`: `table.load()` succeeds iff the table is present, otherwise
    raises `ResourceNotFoundException`; `create_table` and `waiter.wait`
    succeed. -/
def storeBehavior (store : List String) (table : String) : Behavior :=
  { describeResult :=
      if table ∈ store then .ok ()
      else .error (.clientError ErrCode.resourceNotFound)
    createResult := .ok ()
    waiterResult := .ok () }

/-- The `run_migrations` loop executed against a fault-free live store:
    each `create_table` call observes the store state left behind by the
    previous calls, and a successful create adds the table (DynamoDB's
    create semantics).  Returns the final store contents, the per-table
    outcomes and the store-call trace. -/
def runTablesOnStore (store : List String) :
    List TableConfig → List String × List Outcome × List StoreOp
  | [] => (store, [], [])
  | cfg :: rest =>
    let (ops, r) := create_table cfg (storeBehavior store cfg.name)
    match r with
    | .error _ => (store, [], ops)
    | .ok o =>
      let store' := if cfg.name ∈ store then store else cfg.name :: store
      let (s2, os2, ops2) := runTablesOnStore store' rest
      (s2, o :: os2, ops ++ ops2)

/-- `run_migrations` against a fault-free live store in state `store`:
    identical to `run_migrations` but with the store responses derived
    from the evolving store state. -/
def run_migrations_on_store (src : Except ConfigErr ConfigDoc)
    (store : List String) : Bool × List String :=
  match load_table_config src with
  | .error _ => (false, store)
  | .ok tcs =>
    if tcs.isEmpty then (true, store)
    else
      let (s, outcomes, _) := runTablesOnStore store tcs
      (decide (outcomes.countP (fun o => o.toBool) = tcs.length), s)

/-- Specification-side definition, from §3 of the design document:
    "every attribute name appearing in `key_schema` or in any index's key
    schema must appear in `attributes`".  (The embedded configurations
    carry no index key schemas, so the condition is over `key_schema`.)
    Stated from the spec's words, for comparison with what
    `load_table_config` actually checks. -/
def specInvariantHolds (cfg : TableConfig) : Bool :=
  cfg.key_schema.all fun k =>
    cfg.attributes.any fun a => a.name = k.attribute_name

end Migrations

namespace BirthdayApi

/-- Gregorian leap-year rule, as implemented by Python's `datetime`. -/
def isLeap (y : Nat) : Bool :=
  y % 4 == 0 && (y % 100 != 0 || y % 400 == 0)

/-- Length of month `m` (1..12) in a year with leap flag `leap`;
    0 for out-of-range month numbers. -/
def daysInMonth (leap : Bool) : Nat → Nat
  | 1 => 31
  | 2 => if leap then 29 else 28
  | 3 => 31
  | 4 => 30
  | 5 => 31
  | 6 => 30
  | 7 => 31
  | 8 => 31
  | 9 => 30
  | 10 => 31
  | 11 => 30
  | 12 => 31
  | _ => 0

/-- A Python `datetime.date` value (year, month, day). -/
structure PyDate where
  year : Nat
  month : Nat
  day : Nat
deriving DecidableEq, Repr

/-- Whether `datetime.date(y, m, d)` constructs without `ValueError`:
    the year is bounded by Python's MINYEAR = 1 and MAXYEAR = 9999, and
    the day by the month's length in that year. -/
def validDate (y m d : Nat) : Prop :=
  1 ≤ y ∧ y ≤ 9999 ∧ 1 ≤ m ∧ m ≤ 12 ∧ 1 ≤ d ∧ d ≤ daysInMonth (isLeap y) m

instance (y m d : Nat) : Decidable (validDate y m d) := by
  unfold validDate; infer_instance

/-- A date object that Python can represent. -/
def PyDate.Valid (dt : PyDate) : Prop :=
  validDate dt.year dt.month dt.day

instance (dt : PyDate) : Decidable dt.Valid := by
  unfold PyDate.Valid; infer_instance

/-- Python's `some_date.replace(year=y)`: returns the date with the year
    substituted, or raises `ValueError` (modelled as `none`) when the
    resulting (year, month, day) triple is not a valid date — for a valid
    receiver: February 29 in a non-leap year, or a year outside
    MINYEAR..MAXYEAR (1..9999). -/
def replaceYear (dt : PyDate) (y : Nat) : Option PyDate :=
  if validDate y dt.month dt.day then some ⟨y, dt.month, dt.day⟩ else none

/-- Python's `<` on `datetime.date`: lexicographic comparison of
    (year, month, day). -/
def dateLt (a b : PyDate) : Prop :=
  a.year < b.year ∨
    (a.year = b.year ∧
      (a.month < b.month ∨ (a.month = b.month ∧ a.day < b.day)))

instance (a b : PyDate) : Decidable (dateLt a b) := by
  unfold dateLt; infer_instance

/-- Sum of the lengths of months `1..m-1` (day-of-year offset of month
    `m`). -/
def monthDaysBefore (leap : Bool) : Nat → Nat
  | 0 => 0
  | m + 1 => monthDaysBefore leap m + daysInMonth leap m

/-- Ordinal day of (m, d) within its year, starting at 1. -/
def dayOfYear (leap : Bool) (m d : Nat) : Nat :=
  monthDaysBefore leap m + d

/-- Number of days of a year with leap flag `leap`. -/
def daysInYear (leap : Bool) : Nat :=
  if leap then 366 else 365

/-- Number of leap years in `1..y-1`. -/
def leapsBefore (y : Nat) : Nat :=
  (y - 1) / 4 + (y - 1) / 400 - (y - 1) / 100

/-- Days from the start of year 1 to the start of year `y`. -/
def daysBeforeYear (y : Nat) : Nat :=
  365 * (y - 1) + leapsBefore y

/-- Rata-die day number of a date (day 1 = January 1 of year 1), the
    basis of Python's `date.toordinal` and hence of date subtraction. -/
def rataDie (dt : PyDate) : Nat :=
  daysBeforeYear dt.year + dayOfYear (isLeap dt.year) dt.month dt.day

/-- Python's `(a - b).days` on dates. -/
def dateSub (a b : PyDate) : Int :=
  (rataDie a : Int) - (rataDie b : Int)

/-- `calculate_days_until_birthday` (main.py:135-151), on already-parsed
    dates (the `strptime` of the stored ISO string and `date.today()` are
    the glue around it).  The two `birth_date.replace(year=...)` calls can
    raise `ValueError` (February 29 in a non-leap year), which the
    function does not catch; a raised error is modelled as `none`. -/
def calculate_days_until_birthday (birth today : PyDate) : Option Int :=
  match replaceYear birth today.year with
  | none => none
  | some this_year_birthday =>
    if dateLt this_year_birthday today then
      match replaceYear birth (today.year + 1) with
      | none => none
      | some next_birthday => some (dateSub next_birthday today)
    else
      some (dateSub this_year_birthday today)

lemma monthDaysBefore_succ (leap : Bool) (m : Nat) :
    monthDaysBefore leap (m + 1) = monthDaysBefore leap m + daysInMonth leap m :=
  rfl

lemma monthDaysBefore_le_add (leap : Bool) (a k : Nat) :
    monthDaysBefore leap a ≤ monthDaysBefore leap (a + k) := by
  induction k with
  | zero => exact Nat.le_refl _
  | succ n ih =>
      have : a + (n + 1) = (a + n) + 1 := rfl
      rw [this, monthDaysBefore_succ]
      exact ih.trans (Nat.le_add_right _ _)

lemma monthDaysBefore_mono (leap : Bool) {a b : Nat} (h : a ≤ b) :
    monthDaysBefore leap a ≤ monthDaysBefore leap b := by
  obtain ⟨k, rfl⟩ := Nat.le.dest h
  exact monthDaysBefore_le_add leap a k

lemma monthDaysBefore_thirteen (leap : Bool) :
    monthDaysBefore leap 13 = daysInYear leap := by
  cases leap <;> rfl

lemma dayOfYear_le_daysInYear (leap : Bool) {m d : Nat}
    (hm : m ≤ 12) (hd : d ≤ daysInMonth leap m) :
    dayOfYear leap m d ≤ daysInYear leap := by
  have h1 : dayOfYear leap m d ≤ monthDaysBefore leap (m + 1) := by
    rw [monthDaysBefore_succ]
    exact Nat.add_le_add_left hd _
  have h2 : monthDaysBefore leap (m + 1) ≤ monthDaysBefore leap 13 :=
    monthDaysBefore_mono leap (by omega)
  rw [monthDaysBefore_thirteen] at h2
  exact h1.trans h2

lemma one_le_dayOfYear (leap : Bool) {m d : Nat} (hd : 1 ≤ d) :
    1 ≤ dayOfYear leap m d := by
  unfold dayOfYear; omega

lemma dayOfYear_lt_of_lex_lt (leap : Bool) {m d m' d' : Nat}
    (hdle : d ≤ daysInMonth leap m) (hd' : 1 ≤ d')
    (h : m < m' ∨ (m = m' ∧ d < d')) :
    dayOfYear leap m d < dayOfYear leap m' d' := by
  rcases h with h | ⟨rfl, h⟩
  · have h1 : dayOfYear leap m d ≤ monthDaysBefore leap (m + 1) := by
      rw [monthDaysBefore_succ]
      exact Nat.add_le_add_left hdle _
    have h2 : monthDaysBefore leap (m + 1) ≤ monthDaysBefore leap m' :=
      monthDaysBefore_mono leap h
    unfold dayOfYear at h1 ⊢
    omega
  · unfold dayOfYear; omega

lemma div_hundred_le_div_four (n : Nat) : n / 100 ≤ n / 4 :=
  Nat.div_le_div_left (by norm_num) (by norm_num)

lemma daysBeforeYear_succ {y : Nat} (hy : 1 ≤ y) :
    daysBeforeYear (y + 1) = daysBeforeYear y + daysInYear (isLeap y) := by
  obtain ⟨y', rfl⟩ : ∃ y', y = y' + 1 := ⟨y - 1, by omega⟩
  have e4 := Nat.succ_div y' 4
  have e100 := Nat.succ_div y' 100
  have e400 := Nat.succ_div y' 400
  have hle : y' / 100 ≤ y' / 4 := div_hundred_le_div_four y'
  have hle' : (y' + 1) / 100 ≤ (y' + 1) / 4 := div_hundred_le_div_four (y' + 1)
  have h4 : (4 ∣ y' + 1) ↔ (y' + 1) % 4 = 0 := Nat.dvd_iff_mod_eq_zero
  have h100 : (100 ∣ y' + 1) ↔ (y' + 1) % 100 = 0 := Nat.dvd_iff_mod_eq_zero
  have h400 : (400 ∣ y' + 1) ↔ (y' + 1) % 400 = 0 := Nat.dvd_iff_mod_eq_zero
  unfold daysBeforeYear leapsBefore daysInYear isLeap
  simp only [Nat.add_sub_cancel, h4, h100, h400] at e4 e100 e400 ⊢
  by_cases c4 : (y' + 1) % 4 = 0 <;> by_cases c100 : (y' + 1) % 100 = 0 <;>
    by_cases c400 : (y' + 1) % 400 = 0 <;>
      simp only [c4, c100, c400, if_true, if_false, beq_iff_eq, bne_iff_ne,
        ne_eq, beq_self_eq_true, Bool.true_and, Bool.false_and, Bool.and_eq_true,
        Bool.or_eq_true, not_true, not_false_iff, if_pos, if_neg,
        Nat.add_sub_cancel] at e4 e100 e400 ⊢ <;>
      simp [c4, c100, c400] at e4 e100 e400 ⊢ <;>
      omega

lemma rataDie_lt_of_dateLt_same_year {a b : PyDate}
    (ha : a.Valid) (hb : b.Valid) (hy : a.year = b.year) (h : dateLt a b) :
    rataDie a < rataDie b := by
  obtain ⟨hay, hay9, ham, ham12, had, hadle⟩ := ha
  obtain ⟨hby, hby9, hbm, hbm12, hbd, hbdle⟩ := hb
  rcases h with h | ⟨_, h⟩
  · omega
  · unfold rataDie
    rw [hy]
    exact Nat.add_lt_add_left
      (dayOfYear_lt_of_lex_lt (isLeap b.year) (hy ▸ hadle) hbd h) _

lemma rataDie_lt_of_next_year {a b : PyDate}
    (ha : a.Valid) (hb : b.Valid) (hy : b.year = a.year + 1) :
    rataDie a < rataDie b := by
  obtain ⟨hay, hay9, ham, ham12, had, hadle⟩ := ha
  obtain ⟨hby, hby9, hbm, hbm12, hbd, hbdle⟩ := hb
  have h1 : rataDie a ≤ daysBeforeYear a.year + daysInYear (isLeap a.year) := by
    unfold rataDie
    exact Nat.add_le_add_left (dayOfYear_le_daysInYear _ ham12 hadle) _
  have h2 : daysBeforeYear (a.year + 1) = daysBeforeYear a.year + daysInYear (isLeap a.year) :=
    daysBeforeYear_succ hay
  have h3 : daysBeforeYear b.year < rataDie b := by
    unfold rataDie
    have := one_le_dayOfYear (isLeap b.year) (m := b.month) hbd
    omega
  rw [hy, h2] at h3
  omega

lemma months_days_eq_of_rataDie_eq {a b : PyDate}
    (ha : a.Valid) (hb : b.Valid) (hy : a.year = b.year)
    (h : rataDie a = rataDie b) : a.month = b.month ∧ a.day = b.day := by
  rcases Nat.lt_trichotomy a.month b.month with hm | hm | hm
  · have := rataDie_lt_of_dateLt_same_year ha hb hy (Or.inr ⟨hy, Or.inl hm⟩)
    omega
  · rcases Nat.lt_trichotomy a.day b.day with hd | hd | hd
    · have := rataDie_lt_of_dateLt_same_year ha hb hy (Or.inr ⟨hy, Or.inr ⟨hm, hd⟩⟩)
      omega
    · exact ⟨hm, hd⟩
    · have := rataDie_lt_of_dateLt_same_year hb ha hy.symm
        (Or.inr ⟨hy.symm, Or.inr ⟨hm.symm, hd⟩⟩)
      omega
  · have := rataDie_lt_of_dateLt_same_year hb ha hy.symm (Or.inr ⟨hy.symm, Or.inl hm⟩)
    omega

lemma daysInMonth_transfer (l l' : Bool) :
    ∀ m < 13, ∀ d < 32,
      d ≤ daysInMonth l m → ¬(m = 2 ∧ d = 29) → d ≤ daysInMonth l' m := by
  cases l <;> cases l' <;> decide

lemma validDate_replaceYear {y m d : Nat} (h : validDate y m d)
    (hne : ¬(m = 2 ∧ d = 29)) {y' : Nat} (hy' : 1 ≤ y') (hy9 : y' ≤ 9999) :
    validDate y' m d := by
  obtain ⟨hy, hy99, hm, hm12, hd, hdle⟩ := h
  have hd32 : d < 32 := by
    have : daysInMonth (isLeap y) m ≤ 31 := by
      cases isLeap y <;> (interval_cases m <;> simp [daysInMonth])
    omega
  exact ⟨hy', hy9, hm, hm12, hd,
    daysInMonth_transfer (isLeap y) (isLeap y') m (by omega) d hd32 hdle hne⟩

lemma dateLt_irrefl (a : PyDate) : ¬ dateLt a a := by
  unfold dateLt; omega

lemma rataDie_le_of_not_dateLt {a b : PyDate}
    (ha : a.Valid) (hb : b.Valid) (hy : a.year = b.year)
    (h : ¬ dateLt a b) : rataDie b ≤ rataDie a := by
  unfold dateLt at h
  push_neg at h
  rcases Nat.lt_or_ge b.month a.month with hm | hm
  · exact le_of_lt (rataDie_lt_of_dateLt_same_year hb ha hy.symm
      (Or.inr ⟨hy.symm, Or.inl hm⟩))
  · have hble : b.month ≤ a.month := (h.2 hy).1
    have hmeq : a.month = b.month := le_antisymm hm hble
    have hdle : b.day ≤ a.day := (h.2 hy).2 hmeq
    rcases Nat.lt_or_ge b.day a.day with hd | hd
    · exact le_of_lt (rataDie_lt_of_dateLt_same_year hb ha hy.symm
        (Or.inr ⟨hy.symm, Or.inr ⟨hmeq.symm, hd⟩⟩))
    · have hdeq : a.day = b.day := le_antisymm hd hdle
      unfold rataDie
      rw [hy, hmeq, hdeq]

lemma feb29_invalid {y : Nat} (h : isLeap y = false) : ¬ validDate y 2 29 := by
  intro hv
  obtain ⟨_, _, _, _, _, hle⟩ := hv
  rw [h] at hle
  simp [daysInMonth] at hle

/-- C8 counterexample: the claim's totality fails at the upper end of
    Python's date range: for birth 2000-01-01 (strictly before today, not
    February 29) and today 9999-06-01, this year's anniversary 9999-01-01
    has passed, so the helper calls `birth_date.replace(year=10000)`, which
    raises `ValueError` because MAXYEAR is 9999 — the helper returns no
    integer at all (modelled as `none`). -/
theorem claim_c8_counterexample :
    (⟨2000, 1, 1⟩ : PyDate).Valid ∧ (⟨9999, 6, 1⟩ : PyDate).Valid
    ∧ dateLt ⟨2000, 1, 1⟩ ⟨9999, 6, 1⟩
    ∧ ¬((⟨2000, 1, 1⟩ : PyDate).month = 2 ∧ (⟨2000, 1, 1⟩ : PyDate).day = 29)
    ∧ calculate_days_until_birthday ⟨2000, 1, 1⟩ ⟨9999, 6, 1⟩ = none := by
  decide

/-- C8 amended: for every birth date strictly before the current date,
    excluding February 29, and provided that whenever this year's
    anniversary has already passed the next year still fits Python's
    MAXYEAR bound (today's year + 1 at most 9999), the helper returns a
    non-negative number of days: to this year's anniversary unless that is
    strictly earlier than today, in which case to next year's; it is zero
    exactly when today is the anniversary; in particular with today =
    2024-03-10, birth 2024-03-05 yields 360 and birth 2024-03-10 yields 0. -/
theorem claim_c8_amended :
    (∀ birth today : PyDate, birth.Valid → today.Valid →
      dateLt birth today → ¬(birth.month = 2 ∧ birth.day = 29) →
      (dateLt ⟨today.year, birth.month, birth.day⟩ today →
        today.year + 1 ≤ 9999) →
      ∃ r : Int,
        calculate_days_until_birthday birth today = some r
        ∧ 0 ≤ r
        ∧ (r = 0 ↔ (today.month = birth.month ∧ today.day = birth.day))
        ∧ r = (if dateLt ⟨today.year, birth.month, birth.day⟩ today
               then dateSub ⟨today.year + 1, birth.month, birth.day⟩ today
               else dateSub ⟨today.year, birth.month, birth.day⟩ today))
    ∧ calculate_days_until_birthday ⟨2024, 3, 5⟩ ⟨2024, 3, 10⟩ = some 360
    ∧ calculate_days_until_birthday ⟨2024, 3, 10⟩ ⟨2024, 3, 10⟩ = some 0 := by
  refine ⟨?_, by decide, by decide⟩
  intro birth today hb ht hlt hne hbound
  have hty : 1 ≤ today.year ∧ today.year ≤ 9999 := by
    have ht2 := ht
    obtain ⟨h1, h2, _, _, _, _⟩ := ht2
    exact ⟨h1, h2⟩
  have hthis : validDate today.year birth.month birth.day :=
    validDate_replaceYear hb hne hty.1 hty.2
  have hrep1 : replaceYear birth today.year
      = some ⟨today.year, birth.month, birth.day⟩ := by
    unfold replaceYear; rw [if_pos hthis]
  by_cases hcase : dateLt (⟨today.year, birth.month, birth.day⟩ : PyDate) today
  · have hnext : validDate (today.year + 1) birth.month birth.day :=
      validDate_replaceYear hb hne (by omega) (hbound hcase)
    have hrep2 : replaceYear birth (today.year + 1)
        = some ⟨today.year + 1, birth.month, birth.day⟩ := by
      unfold replaceYear; rw [if_pos hnext]
    have hcalc : calculate_days_until_birthday birth today
        = some (dateSub ⟨today.year + 1, birth.month, birth.day⟩ today) := by
      unfold calculate_days_until_birthday
      simp only [hrep1]
      rw [if_pos hcase]
      simp only [hrep2]
    have hpos : rataDie today
        < rataDie ⟨today.year + 1, birth.month, birth.day⟩ :=
      rataDie_lt_of_next_year (b := ⟨today.year + 1, birth.month, birth.day⟩)
        ht hnext rfl
    refine ⟨_, hcalc, ?_, ?_, ?_⟩
    · unfold dateSub; omega
    · constructor
      · intro h0
        exfalso
        unfold dateSub at h0
        omega
      · rintro ⟨hm, hd⟩
        exfalso
        have heq : (⟨today.year, birth.month, birth.day⟩ : PyDate) = today := by
          rw [← hm, ← hd]
        rw [heq] at hcase
        exact dateLt_irrefl today hcase
    · rw [if_pos hcase]
  · have hcalc : calculate_days_until_birthday birth today
        = some (dateSub ⟨today.year, birth.month, birth.day⟩ today) := by
      unfold calculate_days_until_birthday
      simp only [hrep1]
      rw [if_neg hcase]
    have hle : rataDie today
        ≤ rataDie ⟨today.year, birth.month, birth.day⟩ :=
      rataDie_le_of_not_dateLt (a := ⟨today.year, birth.month, birth.day⟩)
        hthis ht rfl hcase
    refine ⟨_, hcalc, ?_, ?_, ?_⟩
    · unfold dateSub; omega
    · constructor
      · intro h0
        have heq : rataDie (⟨today.year, birth.month, birth.day⟩ : PyDate)
            = rataDie today := by
          unfold dateSub at h0
          omega
        have hmd := months_days_eq_of_rataDie_eq
          (a := ⟨today.year, birth.month, birth.day⟩) hthis ht rfl heq
        exact ⟨hmd.1.symm, hmd.2.symm⟩
      · rintro ⟨hm, hd⟩
        have heq : (⟨today.year, birth.month, birth.day⟩ : PyDate) = today := by
          rw [← hm, ← hd]
        rw [heq]
        unfold dateSub
        omega
    · rw [if_neg hcase]

/-- Witness for the amended C8: birth date 2000-03-15 and current date
    2024-03-10 (the specification's scenario expecting 5 days). -/
theorem claim_c8_amended_witness :
    (⟨2000, 3, 15⟩ : PyDate).Valid ∧ (⟨2024, 3, 10⟩ : PyDate).Valid
    ∧ dateLt ⟨2000, 3, 15⟩ ⟨2024, 3, 10⟩
    ∧ ¬((⟨2000, 3, 15⟩ : PyDate).month = 2 ∧ (⟨2000, 3, 15⟩ : PyDate).day = 29)
    ∧ (dateLt ⟨(⟨2024, 3, 10⟩ : PyDate).year, (⟨2000, 3, 15⟩ : PyDate).month,
          (⟨2000, 3, 15⟩ : PyDate).day⟩ ⟨2024, 3, 10⟩ →
        (⟨2024, 3, 10⟩ : PyDate).year + 1 ≤ 9999)
    ∧ (∃ r : Int,
        calculate_days_until_birthday ⟨2000, 3, 15⟩ ⟨2024, 3, 10⟩ = some r
        ∧ 0 ≤ r
        ∧ (r = 0 ↔ ((⟨2024, 3, 10⟩ : PyDate).month
              = (⟨2000, 3, 15⟩ : PyDate).month
            ∧ (⟨2024, 3, 10⟩ : PyDate).day = (⟨2000, 3, 15⟩ : PyDate).day))
        ∧ r = (if dateLt ⟨(⟨2024, 3, 10⟩ : PyDate).year,
                  (⟨2000, 3, 15⟩ : PyDate).month,
                  (⟨2000, 3, 15⟩ : PyDate).day⟩ ⟨2024, 3, 10⟩
               then dateSub ⟨(⟨2024, 3, 10⟩ : PyDate).year + 1,
                  (⟨2000, 3, 15⟩ : PyDate).month,
                  (⟨2000, 3, 15⟩ : PyDate).day⟩ ⟨2024, 3, 10⟩
               else dateSub ⟨(⟨2024, 3, 10⟩ : PyDate).year,
                  (⟨2000, 3, 15⟩ : PyDate).month,
                  (⟨2000, 3, 15⟩ : PyDate).day⟩ ⟨2024, 3, 10⟩)) :=
  ⟨by decide, by decide, by decide, by decide, by decide,
   claim_c8_amended.1 ⟨2000, 3, 15⟩ ⟨2024, 3, 10⟩
     (by decide) (by decide) (by decide) (by decide) (by decide)⟩

/-- C9 counterexample: for the birth date 2020-02-29 and current date
    2023-03-10 (anniversary year 2023 is not a leap year), the helper does
    not return a fallback value: `date.replace(year=2023)` raises
    `ValueError` (modelled as `none`), so the helper is not total. -/
theorem claim_c9_counterexample :
    calculate_days_until_birthday ⟨2020, 2, 29⟩ ⟨2023, 3, 10⟩ = none := by
  decide

/-- C9 amended: for a February 29 birth date the helper is not total: it
    propagates the `ValueError` of `date.replace` (modelled as `none`)
    instead of applying any fallback, both when the current year is not a
    leap year and when this year's (leap-day) anniversary has passed and
    the next year is not a leap year. -/
theorem claim_c9_amended :
    (∀ birth today : PyDate, birth.month = 2 → birth.day = 29 →
      isLeap today.year = false →
      calculate_days_until_birthday birth today = none)
    ∧ (∀ birth today : PyDate, birth.month = 2 → birth.day = 29 →
        dateLt ⟨today.year, 2, 29⟩ today →
        isLeap (today.year + 1) = false →
        calculate_days_until_birthday birth today = none) := by
  constructor
  · intro birth today hm hd hleap
    have hinv : ¬ validDate today.year birth.month birth.day := by
      rw [hm, hd]; exact feb29_invalid hleap
    have hrep : replaceYear birth today.year = none := by
      unfold replaceYear; rw [if_neg hinv]
    unfold calculate_days_until_birthday
    simp only [hrep]
  · intro birth today hm hd hpass hleap
    have hinv2 : ¬ validDate (today.year + 1) birth.month birth.day := by
      rw [hm, hd]; exact feb29_invalid hleap
    have hrep2 : replaceYear birth (today.year + 1) = none := by
      unfold replaceYear; rw [if_neg hinv2]
    by_cases hv : validDate today.year birth.month birth.day
    · have hrep1 : replaceYear birth today.year
          = some ⟨today.year, birth.month, birth.day⟩ := by
        unfold replaceYear; rw [if_pos hv]
      unfold calculate_days_until_birthday
      simp only [hrep1]
      rw [hm, hd, if_pos hpass]
      simp only [hrep2]
    · have hrep1 : replaceYear birth today.year = none := by
        unfold replaceYear; rw [if_neg hv]
      unfold calculate_days_until_birthday
      simp only [hrep1]

/-- Witness for the amended C9 at the concrete inputs 2020-02-29 with
    current dates 2023-03-10 (current year not leap) and 2024-03-10 (leap
    year, anniversary passed, next year not leap). -/
theorem claim_c9_amended_witness :
    (isLeap 2023 = false
      ∧ calculate_days_until_birthday ⟨2020, 2, 29⟩ ⟨2023, 3, 10⟩ = none)
    ∧ (dateLt ⟨2024, 2, 29⟩ ⟨2024, 3, 10⟩ ∧ isLeap 2025 = false
      ∧ calculate_days_until_birthday ⟨2020, 2, 29⟩ ⟨2024, 3, 10⟩ = none) :=
  ⟨⟨by decide, claim_c9_amended.1 ⟨2020, 2, 29⟩ ⟨2023, 3, 10⟩ rfl rfl
      (by decide)⟩,
   ⟨by decide, by decide, claim_c9_amended.2 ⟨2020, 2, 29⟩ ⟨2024, 3, 10⟩ rfl rfl
      (by decide) (by decide)⟩⟩

end BirthdayApi

namespace Migrations

lemma Outcome.toBool_eq_not_isFailed (o : Outcome) : o.toBool = !o.isFailed := by
  cases o <;> rfl

lemma create_table_storeBehavior_mem {cfg : TableConfig} {store : List String}
    (h : cfg.name ∈ store) :
    create_table cfg (storeBehavior store cfg.name)
      = ([StoreOp.describeOp cfg.name], .ok Outcome.alreadyExisted) := by
  unfold create_table table_exists storeBehavior
  simp [h]

lemma create_table_storeBehavior_not_mem {cfg : TableConfig} {store : List String}
    (h : cfg.name ∉ store) :
    create_table cfg (storeBehavior store cfg.name)
      = ([StoreOp.describeOp cfg.name, StoreOp.createOp cfg.name,
          StoreOp.waitOp cfg.name], .ok Outcome.created) := by
  unfold create_table table_exists storeBehavior
  simp [h]

lemma runTablesOnStore_store_mono (cfgs : List TableConfig) :
    ∀ (store : List String) (t : String),
      t ∈ store → t ∈ (runTablesOnStore store cfgs).1 := by
  induction cfgs with
  | nil => intro store t ht; simpa [runTablesOnStore] using ht
  | cons cfg rest ih =>
    intro store t ht
    by_cases hmem : cfg.name ∈ store
    · simp only [runTablesOnStore, create_table_storeBehavior_mem hmem,
        if_pos hmem]
      exact ih store t ht
    · simp only [runTablesOnStore, create_table_storeBehavior_not_mem hmem,
        if_neg hmem]
      exact ih _ t (List.mem_cons_of_mem _ ht)

lemma name_mem_runTablesOnStore (cfgs : List TableConfig) :
    ∀ (store : List String), ∀ cfg ∈ cfgs,
      cfg.name ∈ (runTablesOnStore store cfgs).1 := by
  induction cfgs with
  | nil => intro store cfg hcfg; cases hcfg
  | cons c rest ih =>
    intro store cfg hcfg
    by_cases hm : c.name ∈ store
    · simp only [runTablesOnStore, create_table_storeBehavior_mem hm, if_pos hm]
      rcases List.mem_cons.mp hcfg with rfl | hmem
      · exact runTablesOnStore_store_mono rest store _ hm
      · exact ih store cfg hmem
    · simp only [runTablesOnStore, create_table_storeBehavior_not_mem hm,
        if_neg hm]
      rcases List.mem_cons.mp hcfg with rfl | hmem
      · exact runTablesOnStore_store_mono rest _ _ (List.mem_cons_self _ _)
      · exact ih _ cfg hmem

lemma runTablesOnStore_all_mem (cfgs : List TableConfig) :
    ∀ (store : List String), (∀ cfg ∈ cfgs, cfg.name ∈ store) →
      runTablesOnStore store cfgs
        = (store, List.replicate cfgs.length Outcome.alreadyExisted,
           cfgs.map fun c => StoreOp.describeOp c.name) := by
  induction cfgs with
  | nil => intro store h; rfl
  | cons c rest ih =>
    intro store h
    have hm : c.name ∈ store := h c (List.mem_cons_self _ _)
    simp only [runTablesOnStore, create_table_storeBehavior_mem hm, if_pos hm,
      ih store (fun cfg hcfg => h cfg (List.mem_cons_of_mem _ hcfg)),
      List.length_cons, List.replicate_succ, List.map_cons, List.singleton_append]

lemma countP_replicate_eq {α : Type} (p : α → Bool) (a : α) (n : Nat) :
    (List.replicate n a).countP p = if p a then n else 0 := by
  induction n with
  | zero => simp
  | succ n ih =>
    rw [List.replicate_succ, List.countP_cons, ih]
    by_cases h : p a <;> simp [h]

lemma runTables_all_ok (l : List (TableConfig × Behavior))
    (h : ∀ p ∈ l, ∃ ops o, create_table p.1 p.2 = (ops, .ok o)
          ∧ o.isFailed = false) :
    ∃ ops os, runTables l = (ops, .ok os) ∧ os.length = l.length
      ∧ os.countP Outcome.isFailed = 0
      ∧ os.countP Outcome.toBool = l.length := by
  induction l with
  | nil => exact ⟨[], [], rfl, rfl, rfl, rfl⟩
  | cons p rest ih =>
    obtain ⟨opsP, oP, hP, hPf⟩ := h p (List.mem_cons_self _ _)
    obtain ⟨opsR, osR, hR, hRlen, hRf, hRt⟩ :=
      ih (fun q hq => h q (List.mem_cons_of_mem _ hq))
    refine ⟨opsP ++ opsR, oP :: osR, ?_, ?_, ?_, ?_⟩
    · simp only [runTables, hP, hR, Except.map]
    · simp [hRlen]
    · simp [List.countP_cons, hPf, hRf]
    · simp [List.countP_cons, Outcome.toBool_eq_not_isFailed, hPf, hRt, hRlen]

lemma runTables_append (l2 l1 : List (TableConfig × Behavior)) :
    ∀ ops1 os1, runTables l1 = (ops1, .ok os1) →
      runTables (l1 ++ l2)
        = (ops1 ++ (runTables l2).1,
           ((runTables l2).2).map (fun os2 => os1 ++ os2)) := by
  induction l1 with
  | nil =>
    intro ops1 os1 h
    simp only [runTables] at h
    obtain ⟨h1, h2⟩ := Prod.mk.injEq .. ▸ h
    cases h1
    cases (Except.ok.injEq ..) ▸ h2
    rcases h2 : runTables l2 with ⟨ops2, r2⟩
    cases r2 <;> simp [h2, Except.map]
  | cons p l1' ih =>
    intro ops1 os1 h
    rcases hP : create_table p.1 p.2 with ⟨opsP, rP⟩
    rcases rP with e | oP
    · rw [show (p :: l1') = (p.1, p.2) :: l1' from rfl] at h
      simp only [runTables, hP] at h
      exact absurd (congrArg Prod.snd h) (by simp)
    · rcases hR : runTables l1' with ⟨opsR, rR⟩
      rcases rR with e | osR
      · rw [show (p :: l1') = (p.1, p.2) :: l1' from rfl] at h
        simp only [runTables, hP, hR, Except.map] at h
        exact absurd (congrArg Prod.snd h) (by simp)
      · rw [show (p :: l1') = (p.1, p.2) :: l1' from rfl] at h
        simp only [runTables, hP, hR, Except.map] at h
        obtain ⟨h1, h2⟩ := Prod.mk.injEq .. ▸ h
        cases h1
        cases (Except.ok.injEq ..) ▸ h2
        have ihe := ih opsR osR hR
        rw [show ((p :: l1') ++ l2) = (p.1, p.2) :: (l1' ++ l2) from rfl]
        simp only [runTables, hP, ihe]
        rcases h2' : runTables l2 with ⟨ops2, r2⟩
        cases r2 <;> simp [Except.map, List.append_assoc]

lemma create_table_fail_create {cfg : TableConfig} {beh : Behavior}
    {c : ErrCode}
    (hdesc : beh.describeResult = .error (.clientError ErrCode.resourceNotFound))
    (hcreate : beh.createResult = .error (.clientError c))
    (hc : c ≠ ErrCode.resourceInUse) :
    create_table cfg beh
      = ([StoreOp.describeOp cfg.name, StoreOp.createOp cfg.name],
         .ok (Outcome.failed (.clientError c))) := by
  unfold create_table table_exists
  rw [hdesc, hcreate]
  simp [hc]

lemma runTables_ok_length (l : List (TableConfig × Behavior)) :
    ∀ ops os, runTables l = (ops, .ok os) → os.length = l.length := by
  induction l with
  | nil =>
    intro ops os h
    simp only [runTables] at h
    cases h
    rfl
  | cons p rest ih =>
    intro ops os h
    rcases hP : create_table p.1 p.2 with ⟨opsP, rP⟩
    rcases rP with e | oP
    · rw [show (p :: rest : List _) = (p.1, p.2) :: rest from rfl] at h
      simp only [runTables, hP] at h
      exact absurd (congrArg Prod.snd h) (by simp)
    · rcases hR : runTables rest with ⟨opsR, rR⟩
      rcases rR with e | osR
      · rw [show (p :: rest : List _) = (p.1, p.2) :: rest from rfl] at h
        simp only [runTables, hP, hR, Except.map] at h
        exact absurd (congrArg Prod.snd h) (by simp)
      · rw [show (p :: rest : List _) = (p.1, p.2) :: rest from rfl] at h
        simp only [runTables, hP, hR, Except.map] at h
        obtain ⟨h1, h2⟩ := Prod.mk.injEq .. ▸ h
        cases h1
        cases (Except.ok.injEq ..) ▸ h2
        simp [ih opsR osR hR]

/-- C10: the listing operation never raises: for every backend response,
    including every classified or unclassified store error, `list_tables`
    returns a list; on any error it returns the empty list, which makes a
    failing store indistinguishable from a store genuinely containing no
    tables. -/
theorem claim_c10_list_tables_never_raises :
    (∀ e : PyErr, list_tables (.error e) = [])
    ∧ (∀ names : List String, list_tables (.ok (some names)) = names)
    ∧ list_tables (.ok none) = []
    ∧ (∀ e : PyErr, list_tables (.error e) = list_tables (.ok (some []))) :=
  ⟨fun _ => rfl, fun _ => rfl, rfl, fun _ => rfl⟩

/-- C6 counterexample: the claim says classified store errors other than
    NotFound (such as Unauthorized) are surfaced as errors by the
    existence check; in the code `table_exists` catches every
    `ClientError`, so an AccessDenied response is converted to `False`
    and no error is surfaced. -/
theorem claim_c6_counterexample :
    table_exists (.error (.clientError ErrCode.accessDenied)) = .ok false
    ∧ ∀ e : PyErr,
        table_exists (.error (.clientError ErrCode.accessDenied)) ≠ .error e :=
  ⟨rfl, fun _ h => Except.noConfusion h⟩

/-- C6 amended: the existence check returns true iff the describe call
    succeeds (the entity is known to the store); a NotFound response maps
    to false rather than an error, but every other `ClientError`-classified
    store error (Unauthorized included) is likewise converted to false
    after logging; only exceptions that are not `ClientError`s (e.g. an
    unreachable endpoint's connection error, or a waiter timeout object)
    propagate as errors. -/
theorem claim_c6_amended :
    table_exists (.ok ()) = .ok true
    ∧ (∀ c : ErrCode, table_exists (.error (.clientError c)) = .ok false)
    ∧ (∀ r : Except PyErr Unit, table_exists r = .ok true ↔ r = .ok ())
    ∧ table_exists (.error .waiterTimeout) = .error .waiterTimeout
    ∧ table_exists (.error .otherExc) = .error .otherExc := by
  refine ⟨rfl, fun c => by cases c <;> rfl, fun r => ?_, rfl, rfl⟩
  rcases r with e | u
  · rcases e with c | _ | _ <;> simp [table_exists]
  · simp [table_exists]

/-- C3 counterexample: for a descriptor whose create call fails with
    AlreadyExists (ResourceInUseException), the code returns success
    immediately from the `except` handler: the trace contains no
    readiness-wait call, contradicting "proceeds to the readiness wait
    exactly as on a successful create". -/
theorem claim_c3_counterexample :
    (create_table ⟨"users_birthdays", [⟨"username", "HASH"⟩],
        [⟨"username", "S"⟩], "PAY_PER_REQUEST"⟩
      ⟨.error (.clientError ErrCode.resourceNotFound),
       .error (.clientError ErrCode.resourceInUse), .ok ()⟩).2
      = .ok Outcome.raceLost
    ∧ StoreOp.waitOp "users_birthdays" ∉
        (create_table ⟨"users_birthdays", [⟨"username", "HASH"⟩],
            [⟨"username", "S"⟩], "PAY_PER_REQUEST"⟩
          ⟨.error (.clientError ErrCode.resourceNotFound),
           .error (.clientError ErrCode.resourceInUse), .ok ()⟩).1 :=
  ⟨rfl, by decide⟩

/-- C3 amended: a create call failing with AlreadyExists is treated as a
    benign race and never as a failure: the outcome is the non-failed
    `raceLost` (create_table returns True), but the reconciler returns
    immediately and skips the readiness wait, unlike the successful-create
    path. -/
theorem claim_c3_amended (cfg : TableConfig) (beh : Behavior)
    (hdesc : beh.describeResult = .error (.clientError ErrCode.resourceNotFound))
    (hcreate : beh.createResult = .error (.clientError ErrCode.resourceInUse)) :
    create_table cfg beh
      = ([StoreOp.describeOp cfg.name, StoreOp.createOp cfg.name],
         .ok Outcome.raceLost)
    ∧ Outcome.raceLost.isFailed = false
    ∧ Outcome.raceLost.toBool = true := by
  refine ⟨?_, rfl, rfl⟩
  unfold create_table table_exists
  rw [hdesc, hcreate]
  simp

/-- Witness for the amended C3 at a concrete configuration and store
    behavior. -/
theorem claim_c3_amended_witness :
    create_table ⟨"t", [], [], "PROVISIONED"⟩
        ⟨.error (.clientError ErrCode.resourceNotFound),
         .error (.clientError ErrCode.resourceInUse), .ok ()⟩
      = ([StoreOp.describeOp "t", StoreOp.createOp "t"], .ok Outcome.raceLost)
    ∧ Outcome.raceLost.isFailed = false
    ∧ Outcome.raceLost.toBool = true :=
  claim_c3_amended _ _ rfl rfl

/-- C7: when the readiness wait exceeds its bounded attempts the waiter
    raises (it never blocks unboundedly), the entity's outcome is recorded
    as failed with the timeout as its cause, and the remaining descriptors
    are processed exactly as they would be on their own. -/
theorem claim_c7_timeout (cfg : TableConfig) (beh : Behavior)
    (rest : List (TableConfig × Behavior))
    (hdesc : beh.describeResult = .error (.clientError ErrCode.resourceNotFound))
    (hcreate : beh.createResult = .ok ())
    (hwait : beh.waiterResult = .error .waiterTimeout) :
    (create_table cfg beh).2 = .ok (Outcome.failed PyErr.waiterTimeout)
    ∧ runTables ((cfg, beh) :: rest)
        = ((create_table cfg beh).1 ++ (runTables rest).1,
           ((runTables rest).2).map
             (fun os => Outcome.failed PyErr.waiterTimeout :: os)) := by
  have hct : create_table cfg beh
      = ([StoreOp.describeOp cfg.name, StoreOp.createOp cfg.name,
          StoreOp.waitOp cfg.name], .ok (Outcome.failed PyErr.waiterTimeout)) := by
    unfold create_table table_exists
    rw [hdesc, hcreate, hwait]
    simp
  refine ⟨by rw [hct], ?_⟩
  rcases h2 : runTables rest with ⟨ops2, r2⟩
  simp only [runTables, hct, h2]

/-- Witness for C7 at a concrete descriptor, a timing-out store behavior
    and a non-empty remainder. -/
theorem claim_c7_timeout_witness :
    (create_table ⟨"t", [], [], "PROVISIONED"⟩
        ⟨.error (.clientError ErrCode.resourceNotFound), .ok (),
         .error .waiterTimeout⟩).2 = .ok (Outcome.failed PyErr.waiterTimeout)
    ∧ runTables [(⟨"t", [], [], "PROVISIONED"⟩,
        ⟨.error (.clientError ErrCode.resourceNotFound), .ok (),
         .error .waiterTimeout⟩),
        (⟨"u", [], [], "PROVISIONED"⟩, storeBehavior [] "u")]
        = ((create_table ⟨"t", [], [], "PROVISIONED"⟩
              ⟨.error (.clientError ErrCode.resourceNotFound), .ok (),
               .error .waiterTimeout⟩).1
            ++ (runTables [(⟨"u", [], [], "PROVISIONED"⟩,
                  storeBehavior [] "u")]).1,
           ((runTables [(⟨"u", [], [], "PROVISIONED"⟩,
              storeBehavior [] "u")]).2).map
             (fun os => Outcome.failed PyErr.waiterTimeout :: os)) :=
  claim_c7_timeout _ _ _ rfl rfl rfl

/-- C4 counterexample: a configuration whose `key_schema` references the
    attribute "username", absent from its (empty) `attributes`, is not
    rejected by the Loader: `load_table_config` succeeds and returns the
    violating configuration, refuting "loading fails". -/
theorem claim_c4_counterexample :
    specInvariantHolds
      ⟨"users_birthdays", [⟨"username", "HASH"⟩], [], "PAY_PER_REQUEST"⟩ = false
    ∧ load_table_config
        (.ok ⟨some [⟨"users_birthdays", [⟨"username", "HASH"⟩], [],
          "PAY_PER_REQUEST"⟩]⟩)
        = .ok [⟨"users_birthdays", [⟨"username", "HASH"⟩], [],
            "PAY_PER_REQUEST"⟩] :=
  ⟨rfl, rfl⟩

/-- C4 amended: the Loader performs no schema-invariant validation: a
    configuration referencing in `key_schema` an attribute absent from
    `attributes` is loaded successfully and handed to the Reconciler
    unchanged; the invalid schema is rejected only by the store itself at
    create time (a ValidationException-class `ClientError`), which is
    recorded as that entity's failed outcome. -/
theorem claim_c4_amended (doc : ConfigDoc) (cfg : TableConfig)
    (hviol : specInvariantHolds cfg = false)
    (hmem : cfg ∈ doc.tables?.getD []) (beh : Behavior)
    (hdesc : beh.describeResult = .error (.clientError ErrCode.resourceNotFound))
    (hcreate : beh.createResult = .error (.clientError ErrCode.otherCode)) :
    (∃ tcs, load_table_config (.ok doc) = .ok tcs ∧ cfg ∈ tcs)
    ∧ (create_table cfg beh).2
        = .ok (Outcome.failed (.clientError ErrCode.otherCode)) := by
  refine ⟨⟨doc.tables?.getD [], rfl, hmem⟩, ?_⟩
  rw [create_table_fail_create hdesc hcreate (by decide)]

/-- Witness for the amended C4 at the concrete violating configuration. -/
theorem claim_c4_amended_witness :
    specInvariantHolds
      ⟨"users_birthdays", [⟨"username", "HASH"⟩], [], "PAY_PER_REQUEST"⟩ = false
    ∧ ((∃ tcs, load_table_config
          (.ok ⟨some [⟨"users_birthdays", [⟨"username", "HASH"⟩], [],
            "PAY_PER_REQUEST"⟩]⟩) = .ok tcs
          ∧ (⟨"users_birthdays", [⟨"username", "HASH"⟩], [],
              "PAY_PER_REQUEST"⟩ : TableConfig) ∈ tcs)
        ∧ (create_table
            ⟨"users_birthdays", [⟨"username", "HASH"⟩], [], "PAY_PER_REQUEST"⟩
            ⟨.error (.clientError ErrCode.resourceNotFound),
             .error (.clientError ErrCode.otherCode), .ok ()⟩).2
          = .ok (Outcome.failed (.clientError ErrCode.otherCode))) :=
  ⟨rfl, claim_c4_amended
    ⟨some [⟨"users_birthdays", [⟨"username", "HASH"⟩], [], "PAY_PER_REQUEST"⟩]⟩
    ⟨"users_birthdays", [⟨"username", "HASH"⟩], [], "PAY_PER_REQUEST"⟩
    rfl (by decide)
    ⟨.error (.clientError ErrCode.resourceNotFound),
     .error (.clientError ErrCode.otherCode), .ok ()⟩
    rfl rfl⟩

/-- C2: idempotence of reconciliation: for every configuration, after a
    first run (from an arbitrary initial store) that made every configured
    table exist, a second run against the same configuration records
    `already_existed` for every table, issues zero create calls to the
    store (the existence check short-circuits before the creation path),
    and `run_migrations` reports overall success. -/
theorem claim_c2_idempotent (doc : ConfigDoc) (store₀ : List String) :
    (runTablesOnStore ((runTablesOnStore store₀ (doc.tables?.getD [])).1)
        (doc.tables?.getD [])).2.1
      = List.replicate (doc.tables?.getD []).length Outcome.alreadyExisted
    ∧ ((runTablesOnStore ((runTablesOnStore store₀ (doc.tables?.getD [])).1)
        (doc.tables?.getD [])).2.2).countP StoreOp.isCreate = 0
    ∧ (run_migrations_on_store (.ok doc)
        ((runTablesOnStore store₀ (doc.tables?.getD [])).1)).1 = true := by
  have hall : ∀ cfg ∈ doc.tables?.getD [],
      cfg.name ∈ (runTablesOnStore store₀ (doc.tables?.getD [])).1 :=
    fun cfg h => name_mem_runTablesOnStore (doc.tables?.getD []) store₀ cfg h
  have hrun := runTablesOnStore_all_mem (doc.tables?.getD [])
    (runTablesOnStore store₀ (doc.tables?.getD [])).1 hall
  refine ⟨by rw [hrun], ?_, ?_⟩
  · rw [hrun]
    simp only [List.countP_map]
    exact List.countP_eq_zero.mpr (fun c _ => by simp [Function.comp,
      StoreOp.isCreate])
  · unfold run_migrations_on_store load_table_config
    by_cases he : (doc.tables?.getD []).isEmpty
    · simp [he]
    · simp only [he, hrun, if_false, Bool.false_eq_true]
      simp [countP_replicate_eq, Outcome.toBool]

/-- C5: for every run in which loading succeeded and no exception escaped
    the per-table loop (so that every descriptor has a recorded outcome),
    the process exit status is 0 iff every outcome is non-failed, and it
    is non-zero as soon as at least one outcome is failed. -/
theorem claim_c5_exit_status (doc : ConfigDoc) (env : String → Behavior)
    (ops : List StoreOp) (outcomes : List Outcome)
    (h : runTables ((doc.tables?.getD []).map (fun c => (c, env c.name)))
          = (ops, .ok outcomes)) :
    (main_exit (.ok doc) env = 0 ↔ ∀ o ∈ outcomes, o.isFailed = false)
    ∧ ((∃ o ∈ outcomes, o.isFailed = true) → main_exit (.ok doc) env ≠ 0) := by
  have hlen : outcomes.length = (doc.tables?.getD []).length := by
    have := runTables_ok_length _ _ _ h
    simpa using this
  have hmain : main_exit (.ok doc) env
      = if (run_migrations (.ok doc) env).1 then 0 else 1 := rfl
  have hfst : (run_migrations (.ok doc) env).1
      = (if (doc.tables?.getD []).isEmpty then true
         else decide (outcomes.countP (fun o => o.toBool)
                = (doc.tables?.getD []).length)) := by
    unfold run_migrations load_table_config
    by_cases he : (doc.tables?.getD []).isEmpty
    · simp [he]
    · simp only [he, if_false, Bool.false_eq_true, h]
  have hiff : main_exit (.ok doc) env = 0
      ↔ ∀ o ∈ outcomes, o.isFailed = false := by
    rw [hmain, hfst]
    by_cases he : (doc.tables?.getD []).isEmpty
    · have : outcomes = [] := by
        have h0 : (doc.tables?.getD []).length = 0 :=
          List.isEmpty_iff_length_eq_zero.mp he
        exact List.eq_nil_of_length_eq_zero (hlen.trans h0)
      simp [he, this]
    · simp only [he, if_false, Bool.false_eq_true]
      rw [← hlen]
      constructor
      · intro h0
        have hcount : outcomes.countP (fun o => o.toBool) = outcomes.length := by
          by_contra hne
          simp [hne] at h0
        intro o ho
        have := List.countP_eq_length.mp hcount o ho
        simpa [Outcome.toBool_eq_not_isFailed] using this
      · intro hall
        have hcount : outcomes.countP (fun o => o.toBool) = outcomes.length :=
          List.countP_eq_length.mpr (fun o ho => by
            simp [Outcome.toBool_eq_not_isFailed, hall o ho])
        simp [hcount]
  refine ⟨hiff, ?_⟩
  rintro ⟨o, ho, hf⟩ h0
  have := hiff.mp h0 o ho
  rw [this] at hf
  cases hf

/-- Witness for C5: a one-table configuration whose creation succeeds,
    with its recorded outcome list. -/
theorem claim_c5_exit_status_witness :
    (main_exit (.ok ⟨some [⟨"t", [], [], "PROVISIONED"⟩]⟩)
        (fun _ => ⟨.error (.clientError ErrCode.resourceNotFound),
          .ok (), .ok ()⟩) = 0
      ↔ ∀ o ∈ [Outcome.created], o.isFailed = false)
    ∧ ((∃ o ∈ [Outcome.created], o.isFailed = true)
        → main_exit (.ok ⟨some [⟨"t", [], [], "PROVISIONED"⟩]⟩)
            (fun _ => ⟨.error (.clientError ErrCode.resourceNotFound),
              .ok (), .ok ()⟩) ≠ 0) :=
  claim_c5_exit_status _ _ _ _ rfl

/-- C1: isolation of per-entity failures: for every configuration of
    N descriptors in which exactly one descriptor's create call fails with
    a non-AlreadyExists store error (every other descriptor reconciling to
    a non-failed outcome), the run still records an outcome for all N
    descriptors, exactly one of them failed, and `run_migrations` reports
    the partial failure with a non-zero exit status. -/
theorem claim_c1_isolation (pre post : List TableConfig) (bad : TableConfig)
    (env : String → Behavior) (c : ErrCode) (doc : ConfigDoc)
    (hdoc : doc.tables? = some (pre ++ bad :: post))
    (hdesc : (env bad.name).describeResult
      = .error (.clientError ErrCode.resourceNotFound))
    (hcreate : (env bad.name).createResult = .error (.clientError c))
    (hc : c ≠ ErrCode.resourceInUse)
    (hothers : ∀ cfg ∈ pre ++ post, ∃ ops o,
        create_table cfg (env cfg.name) = (ops, .ok o) ∧ o.isFailed = false) :
    ∃ ops outcomes,
      runTables ((pre ++ bad :: post).map (fun cfg => (cfg, env cfg.name)))
        = (ops, .ok outcomes)
      ∧ outcomes.length = pre.length + 1 + post.length
      ∧ outcomes.countP Outcome.isFailed = 1
      ∧ (run_migrations (.ok doc) env).1 = false
      ∧ main_exit (.ok doc) env = 1 := by
  have hbad : create_table bad (env bad.name)
      = ([StoreOp.describeOp bad.name, StoreOp.createOp bad.name],
         .ok (Outcome.failed (.clientError c))) :=
    create_table_fail_create hdesc hcreate hc
  obtain ⟨opsPre, osPre, hPre, hPreLen, hPreF, hPreT⟩ :=
    runTables_all_ok (pre.map (fun cfg => (cfg, env cfg.name)))
      (by
        intro p hp
        obtain ⟨cfg, hcfg, rfl⟩ := List.mem_map.mp hp
        exact hothers cfg (List.mem_append_left _ hcfg))
  obtain ⟨opsPost, osPost, hPost, hPostLen, hPostF, hPostT⟩ :=
    runTables_all_ok (post.map (fun cfg => (cfg, env cfg.name)))
      (by
        intro p hp
        obtain ⟨cfg, hcfg, rfl⟩ := List.mem_map.mp hp
        exact hothers cfg (List.mem_append_right _ hcfg))
  have hmid : runTables ((bad :: post).map (fun cfg => (cfg, env cfg.name)))
      = ([StoreOp.describeOp bad.name, StoreOp.createOp bad.name] ++ opsPost,
         .ok (Outcome.failed (.clientError c) :: osPost)) := by
    simp only [List.map_cons, runTables, hbad, hPost, Except.map]
  have hsplit : runTables ((pre ++ bad :: post).map
      (fun cfg => (cfg, env cfg.name)))
      = (opsPre ++ ([StoreOp.describeOp bad.name, StoreOp.createOp bad.name]
          ++ opsPost),
         .ok (osPre ++ Outcome.failed (.clientError c) :: osPost)) := by
    rw [List.map_append]
    rw [runTables_append _ _ opsPre osPre hPre, hmid]
    rfl
  have hOutLen : (osPre ++ Outcome.failed (.clientError c) :: osPost).length
      = pre.length + 1 + post.length := by
    simp [hPreLen, hPostLen]
    omega
  have hOutF : (osPre ++ Outcome.failed (.clientError c) :: osPost).countP
      Outcome.isFailed = 1 := by
    simp [List.countP_append, List.countP_cons, hPreF, hPostF, Outcome.isFailed]
  have hOutT : (osPre ++ Outcome.failed (.clientError c) :: osPost).countP
      (fun o => o.toBool) = pre.length + post.length := by
    have h1 : osPre.countP (fun o => o.toBool) = pre.length := by
      simpa using hPreT
    have h2 : osPost.countP (fun o => o.toBool) = post.length := by
      simpa using hPostT
    have h3 : Outcome.toBool (Outcome.failed (.clientError c)) = false := rfl
    simp [List.countP_append, List.countP_cons, h1, h2, h3]
  have hempty : (pre ++ bad :: post).isEmpty = false := by
    cases pre <;> rfl
  have hfalse : (run_migrations (.ok doc) env).1 = false := by
    unfold run_migrations load_table_config
    dsimp only
    rw [hdoc]
    simp only [Option.getD_some, hempty, Bool.false_eq_true, if_false, hsplit]
    have hne2 : List.countP (fun o => o.toBool)
        (osPre ++ Outcome.failed (.clientError c) :: osPost)
        ≠ (pre ++ bad :: post).length := by
      rw [hOutT]
      simp only [List.length_append, List.length_cons]
      omega
    exact decide_eq_false hne2
  exact ⟨_, _, hsplit, hOutLen, hOutF, hfalse, by
    unfold main_exit
    rw [hfalse]
    rfl⟩

/-- Witness for C1: three descriptors "a", "b", "c" where only "b"'s
    create call fails (AccessDenied); the other two are attempted and
    succeed, the report lists one failure, and the exit status is 1. -/
theorem claim_c1_isolation_witness :
    ∃ ops outcomes,
      runTables (([(⟨"a", [], [], "PROVISIONED"⟩ : TableConfig)] ++
          (⟨"b", [], [], "PROVISIONED"⟩ : TableConfig) ::
            [⟨"c", [], [], "PROVISIONED"⟩]).map
        (fun cfg => (cfg,
          (fun n => if n = "b" then
              (⟨.error (.clientError ErrCode.resourceNotFound),
                .error (.clientError ErrCode.accessDenied), .ok ()⟩ : Behavior)
            else
              ⟨.error (.clientError ErrCode.resourceNotFound),
                .ok (), .ok ()⟩) cfg.name)))
        = (ops, .ok outcomes)
      ∧ outcomes.length
          = [(⟨"a", [], [], "PROVISIONED"⟩ : TableConfig)].length + 1
            + [(⟨"c", [], [], "PROVISIONED"⟩ : TableConfig)].length
      ∧ outcomes.countP Outcome.isFailed = 1
      ∧ (run_migrations
          (.ok ⟨some ([(⟨"a", [], [], "PROVISIONED"⟩ : TableConfig)] ++
            (⟨"b", [], [], "PROVISIONED"⟩ : TableConfig) ::
              [⟨"c", [], [], "PROVISIONED"⟩])⟩)
          (fun n => if n = "b" then
              ⟨.error (.clientError ErrCode.resourceNotFound),
                .error (.clientError ErrCode.accessDenied), .ok ()⟩
            else
              ⟨.error (.clientError ErrCode.resourceNotFound),
                .ok (), .ok ()⟩)).1 = false
      ∧ main_exit
          (.ok ⟨some ([(⟨"a", [], [], "PROVISIONED"⟩ : TableConfig)] ++
            (⟨"b", [], [], "PROVISIONED"⟩ : TableConfig) ::
              [⟨"c", [], [], "PROVISIONED"⟩])⟩)
          (fun n => if n = "b" then
              ⟨.error (.clientError ErrCode.resourceNotFound),
                .error (.clientError ErrCode.accessDenied), .ok ()⟩
            else
              ⟨.error (.clientError ErrCode.resourceNotFound),
                .ok (), .ok ()⟩) = 1 :=
  claim_c1_isolation [⟨"a", [], [], "PROVISIONED"⟩]
    [⟨"c", [], [], "PROVISIONED"⟩] ⟨"b", [], [], "PROVISIONED"⟩
    (fun n => if n = "b" then
        ⟨.error (.clientError ErrCode.resourceNotFound),
          .error (.clientError ErrCode.accessDenied), .ok ()⟩
      else
        ⟨.error (.clientError ErrCode.resourceNotFound), .ok (), .ok ()⟩)
    ErrCode.accessDenied
    ⟨some ([(⟨"a", [], [], "PROVISIONED"⟩ : TableConfig)] ++
      (⟨"b", [], [], "PROVISIONED"⟩ : TableConfig) ::
        [⟨"c", [], [], "PROVISIONED"⟩])⟩
    rfl rfl rfl (by decide)
    (by
      intro cfg hcfg
      simp only [List.cons_append, List.nil_append] at hcfg
      rcases List.mem_cons.mp hcfg with rfl | hcfg2
      · exact ⟨_, _, rfl, rfl⟩
      · rcases List.mem_cons.mp hcfg2 with rfl | hcfg3
        · exact ⟨_, _, rfl, rfl⟩
        · cases hcfg3)

end Migrations
